import Mathlib

/-!
Verification development for the sms-backup-and-restore-parser repository.

The Go sources are shallowly embedded: each Go function that the claims
concern is translated into an executable Lean definition, and the claims
are settled as theorems about those definitions.

Helper functions whose bodies live outside the provided sources
(NormalizePhoneNumber, RemoveCommasBeforeSuffixes, CleanupMessageBody and
the String renderings of the typed scalar fields) are treated as abstract
function parameters: every theorem quantifies over them, so the results
hold for any implementation of those helpers.
-/

/-- Record for a single-recipient message, mirroring the Go SMS struct.
The typed scalar fields of the Go struct are carried as their raw strings;
the field named Ty models the Go field named Type (a Lean keyword). -/
structure SMS where
  Protocol : String := ""
  Address : String := ""
  Ty : String := ""
  Subject : String := ""
  Body : String := ""
  ServiceCenter : String := ""
  Status : String := ""
  Read : String := ""
  Date : String := ""
  Locked : String := ""
  DateSent : String := ""
  ReadableDate : String := ""
  ContactName : String := ""
  deriving DecidableEq

/-- Record for one part of a multi-recipient message, mirroring the Go MMSPart struct. -/
structure MMSPart where
  ContentType : String := ""
  Name : String := ""
  FileName : String := ""
  ContentDisplay : String := ""
  Text : String := ""
  Base64Data : String := ""
  deriving DecidableEq

/-- Record for one recipient address of a multi-recipient message. -/
structure MMSAddress where
  Address : String := ""
  Ty : String := ""
  Charset : String := ""
  deriving DecidableEq

/-- Record for a multi-recipient message, mirroring the Go MMS struct. -/
structure MMS where
  TextOnly : String := ""
  Read : String := ""
  Date : String := ""
  Locked : String := ""
  DateSent : String := ""
  ReadableDate : String := ""
  ContactName : String := ""
  Seen : String := ""
  FromAddress : String := ""
  Address : String := ""
  MessageClassifier : String := ""
  MessageSize : String := ""
  Addresses : List MMSAddress := []
  Parts : List MMSPart := []
  deriving DecidableEq

/-- Aggregate collection of decoded messages, mirroring the Go Messages struct. -/
structure Messages where
  Count : String := ""
  BackupSet : String := ""
  BackupDate : String := ""
  SMS : List SMS := []
  MMS : List MMS := []
  deriving DecidableEq

/-- Contact aggregate produced by the resolver, mirroring the Go Contact struct. -/
structure Contact where
  Name : String := ""
  CanonicalNumber : String := ""
  RawNumbers : List String := []
  deriving DecidableEq

/-- Embedding of the Go method Contact.addRawNum: append the raw number
only when it is not already present. -/
def Contact.addRawNum (c : Contact) (rawNum : String) : Contact :=
  if rawNum ∈ c.RawNumbers then c
  else { c with RawNumbers := c.RawNumbers ++ [rawNum] }

/-- Association-list model of the Go map from canonical number to Contact.
Lookup returns the first entry with the given key. -/
def lookupC : List (String × Contact) → String → Option Contact
  | [], _ => none
  | p :: rest, k => if p.1 = k then some p.2 else lookupC rest k

/-- Replace the contact stored at a key, keeping every other entry. -/
def updateC : List (String × Contact) → String → Contact → List (String × Contact)
  | [], _, _ => []
  | p :: rest, k, c => if p.1 = k then (k, c) :: updateC rest k c else p :: updateC rest k c

/-- Splitting of a character list at every occurrence of the separator,
the structural core of the Go function strings.Split for a one-character
separator. -/
def splitChar (sep : Char) : List Char → List (List Char)
  | [] => [[]]
  | c :: rest =>
    let r := splitChar sep rest
    if c = sep then [] :: r
    else
      match r with
      | [] => [[c]]
      | h :: t => (c :: h) :: t

/-- Embedding of Go strings.Split with a one-character separator; on the
empty string it yields a single empty field, as in Go. -/
def goSplit (s : String) (sep : Char) : List String :=
  (splitChar sep s.toList).map (fun l => String.mk l)

/-- Whitespace test used by the trim model (the ASCII whitespace characters
Go strings.TrimSpace removes from the inputs at hand). -/
def isSpaceChar (c : Char) : Bool :=
  c = ' ' || c = '\t' || c = '\n' || c = '\r'

/-- Embedding of Go strings.TrimSpace: drop whitespace from both ends. -/
def trimSpace (s : String) : String :=
  String.mk (((s.toList.dropWhile isSpaceChar).reverse.dropWhile isSpaceChar).reverse)

/-- Cause attached to the count-mismatch diagnostic of the MMS loop of
GuessContacts, one constructor per Go reason string. -/
inductive MismatchReason where
  | contactProbablyHasComma
  | numberProbablyHasNoKnownContact
  deriving DecidableEq

/-- Diagnostics emitted by GuessContacts, one constructor per log.Printf
call site, carrying the data the corresponding log line carries. -/
inductive Diag where
  | multipleNames (canonicalNum oldName newName : String)
  | mmsCountMismatch (numCount nameCount : Nat) (reason : MismatchReason)
  | mmsRawNums (nums : List String)
  | mmsContactNames (names : List String)
  | mmsText (text : String)
  deriving DecidableEq

/-- Name resolution of the SMS loop of Messages.GuessContacts for an
already-known contact: adopt the new name only when the names differ and
the stored name is the Unknown sentinel; in every other case the stored
name is kept. -/
def resolveName (contact : Contact) (newName : String) : Contact :=
  if contact.Name = newName then contact
  else if contact.Name = "(Unknown)" then { contact with Name := newName }
  else contact

/-- Map effect of one iteration of the SMS loop of Messages.GuessContacts.
The parameter normalize stands for NormalizePhoneNumber, whose body is
outside the provided sources. -/
def stepMap (normalize : String → String) (map : List (String × Contact)) (sms : SMS) :
    List (String × Contact) :=
  let rawNum := sms.Address
  let canonicalNum := normalize rawNum
  match lookupC map canonicalNum with
  | some contact =>
    updateC map canonicalNum ((resolveName contact sms.ContactName).addRawNum rawNum)
  | none =>
    map ++ [(canonicalNum,
      { Name := sms.ContactName, CanonicalNumber := canonicalNum, RawNumbers := [rawNum] })]

/-- Log effect of one iteration of the SMS loop of Messages.GuessContacts:
a warning is printed exactly when the stored and incoming names differ and
neither is the sentinel. -/
def stepDiags (normalize : String → String) (map : List (String × Contact)) (sms : SMS) :
    List Diag :=
  let canonicalNum := normalize sms.Address
  match lookupC map canonicalNum with
  | some contact =>
    if contact.Name = sms.ContactName then []
    else if contact.Name = "(Unknown)" then []
    else if sms.ContactName = "(Unknown)" then []
    else [Diag.multipleNames canonicalNum contact.Name sms.ContactName]
  | none => []

/-- One iteration of the SMS loop of Messages.GuessContacts: the Go body
both mutates the canonical map and possibly logs; the two effects are the
stepMap and stepDiags components. -/
def processSMSStep (normalize : String → String)
    (acc : List (String × Contact) × List Diag) (sms : SMS) :
    List (String × Contact) × List Diag :=
  (stepMap normalize acc.1 sms, acc.2 ++ stepDiags normalize acc.1 sms)

/-- Tilde split of the MMS address list, as in the Go MMS loop. -/
def mmsSplitNums (mms : MMS) : List String :=
  goSplit mms.Address '~'

/-- Comma split of the MMS contact-name list after the
RemoveCommasBeforeSuffixes preprocessing (the parameter rc), each piece
trimmed, as in the Go MMS loop. -/
def mmsSplitNames (rc : String → String) (mms : MMS) : List String :=
  (goSplit (rc mms.ContactName) ',').map trimSpace

/-- Reason chosen by the Go MMS loop for a count mismatch. -/
def mmsMismatchReason (numCount nameCount : Nat) : MismatchReason :=
  if numCount > nameCount then MismatchReason.numberProbablyHasNoKnownContact
  else MismatchReason.contactProbablyHasComma

/-- One iteration of the MMS loop of Messages.GuessContacts. On a length
mismatch the record is skipped with diagnostics. When the lengths match
the Go loop body ends without further statements, so the canonical map is
left untouched in both branches; the map component is threaded through
unchanged exactly as in the source. -/
def processMMSStep (rc : String → String)
    (acc : List (String × Contact) × List Diag) (mms : MMS) :
    List (String × Contact) × List Diag :=
  let rawNumsList := mmsSplitNums mms
  let contactNames := mmsSplitNames rc mms
  if rawNumsList.length ≠ contactNames.length then
    let extra :=
      match mms.Parts with
      | _ :: p2 :: _ => [Diag.mmsText p2.Text]
      | _ => []
    (acc.1,
      acc.2 ++
        [Diag.mmsCountMismatch rawNumsList.length contactNames.length
            (mmsMismatchReason rawNumsList.length contactNames.length),
          Diag.mmsRawNums rawNumsList, Diag.mmsContactNames contactNames] ++ extra)
  else
    (acc.1, acc.2)

/-- Canonical map and diagnostics accumulated by Messages.GuessContacts:
the SMS loop followed by the MMS loop. -/
def guessResult (normalize rc : String → String) (m : Messages) :
    List (String × Contact) × List Diag :=
  m.MMS.foldl (processMMSStep rc) (m.SMS.foldl (processSMSStep normalize) ([], []))

/-- Embedding of the Go method Messages.GuessContacts; every path of the
source returns the map together with a nil error, hence the unconditional
ok result. -/
def Messages.GuessContacts (normalize rc : String → String) (m : Messages) :
    Except String (List (String × Contact) × List Diag) :=
  Except.ok (guessResult normalize rc m)

/-- Record for one call, mirroring the Go Call struct; the field named Ty
models the Go field named Type. -/
structure Call where
  Number : String := ""
  Duration : Int := 0
  Date : String := ""
  Ty : String := ""
  ReadableDate : String := ""
  ContactName : String := ""
  deriving DecidableEq

/-- One top-level child element of the message root, as the scanning loop
of MessageDecoder.Decode sees it: a decodable sms element, a decodable mms
element, or an element with any other name, which findElem skips (its
whole subtree is consumed by decoder.Skip). -/
inductive Item where
  | sms (s : SMS)
  | mms (m : MMS)
  | other (name : String)
  deriving DecidableEq

/-- One invocation of a configured message handler. -/
inductive Event where
  | smsEv (s : SMS)
  | mmsEv (m : MMS)
  deriving DecidableEq

/-- Outcome of a Decode call: normal EOF return, the programmer-error
panic raised before any scanning, or an error propagated from a handler. -/
inductive DecodeOutcome where
  | ok
  | panicked (msg : String)
  | err (e : String)
  deriving DecidableEq

/-- Handler configuration of a MessageDecoder: each handler is either nil
or a function that may return an error (modelled as an optional error
string). -/
structure MsgHandlers where
  OnSMS : Option (SMS → Option String) := none
  OnMMS : Option (MMS → Option String) := none

/-- Scanning loop of MessageDecoder.Decode: findElem skips elements of
other names, a nil handler skips the matching element, a configured
handler is invoked on the decoded record, and a handler error aborts the
loop. The second component is the sequence of handler invocations. -/
def decodeLoop (h : MsgHandlers) : List Item → DecodeOutcome × List Event
  | [] => (DecodeOutcome.ok, [])
  | Item.other _ :: rest => decodeLoop h rest
  | Item.sms s :: rest =>
    match h.OnSMS with
    | none => decodeLoop h rest
    | some f =>
      match f s with
      | some e => (DecodeOutcome.err e, [Event.smsEv s])
      | none =>
        let r := decodeLoop h rest
        (r.1, Event.smsEv s :: r.2)
  | Item.mms m :: rest =>
    match h.OnMMS with
    | none => decodeLoop h rest
    | some f =>
      match f m with
      | some e => (DecodeOutcome.err e, [Event.mmsEv m])
      | none =>
        let r := decodeLoop h rest
        (r.1, Event.mmsEv m :: r.2)

/-- Embedding of the Go method MessageDecoder.Decode: it panics up front
when both handlers are nil, and otherwise runs the scanning loop over the
top-level child elements of the stream. -/
def MessageDecoder.Decode (h : MsgHandlers) (items : List Item) :
    DecodeOutcome × List Event :=
  if h.OnSMS.isNone ∧ h.OnMMS.isNone then
    (DecodeOutcome.panicked ("OnSMS or OnMMS must be set"), [])
  else decodeLoop h items

/-- Projection from a document element to the handler invocation it should
produce: sms and mms elements map to their events, other elements to none. -/
def itemEvent : Item → Option Event
  | Item.sms s => some (Event.smsEv s)
  | Item.mms m => some (Event.mmsEv m)
  | Item.other _ => none

/-- One top-level child element of the call root. -/
inductive CallItem where
  | call (c : Call)
  | other (name : String)
  deriving DecidableEq

/-- Scanning loop of CallDecoder.Decode. -/
def callLoop (f : Call → Option String) : List CallItem → DecodeOutcome × List Call
  | [] => (DecodeOutcome.ok, [])
  | CallItem.other _ :: rest => callLoop f rest
  | CallItem.call c :: rest =>
    match f c with
    | some e => (DecodeOutcome.err e, [c])
    | none =>
      let r := callLoop f rest
      (r.1, c :: r.2)

/-- Embedding of the Go method CallDecoder.Decode: it panics up front when
OnCall is nil, and otherwise runs the scanning loop. -/
def CallDecoder.Decode (onCall : Option (Call → Option String)) (items : List CallItem) :
    DecodeOutcome × List Call :=
  match onCall with
  | none => (DecodeOutcome.panicked ("OnCall must be set"), [])
  | some f => callLoop f items

/-- Bundle of the helper renderings used by the sinks whose bodies are
outside the provided sources: the String methods of the typed scalar
fields together with CleanupMessageBody and RemoveCommasBeforeSuffixes.
Each sink theorem quantifies over this bundle. -/
structure Renderers where
  addr : String → String
  msgType : String → String
  svc : String → String
  status : String → String
  readFlag : String → String
  date : String → String
  locked : String → String
  dateSent : String → String
  cleanupMessageBody : String → String
  removeCommasBeforeSuffixes : String → String

/-- Renderer bundle with every helper the identity, used to instantiate
theorems at concrete inputs. -/
def idRenderers : Renderers :=
  { addr := fun s => s, msgType := fun s => s, svc := fun s => s, status := fun s => s,
    readFlag := fun s => s, date := fun s => s, locked := fun s => s, dateSent := fun s => s,
    cleanupMessageBody := fun s => s, removeCommasBeforeSuffixes := fun s => s }

/-- Header columns of the sms.tsv sink, as listed in NewSMSOutput. -/
def smsHeaders : List String :=
  ["SMS Index #", "Protocol", "Address", "Type", "Subject", "Body", "Service Center",
    "Status", "Read", "Date", "Locked", "Date Sent", "Readable Date", "Contact Name"]

/-- Header line written by NewSMSOutput. -/
def smsHeaderLine : String :=
  String.intercalate ("\t") smsHeaders

/-- State of an SMSOutput: the lines written so far (the io.Writer) and
the running index. -/
structure SMSOutputState where
  lines : List String
  idx : Nat
  deriving DecidableEq

/-- Embedding of NewSMSOutput: the header row is written once, at
construction, and the index starts at zero. -/
def NewSMSOutput : SMSOutputState :=
  { lines := [smsHeaderLine], idx := 0 }

/-- Embedding of the Go method SMSOutput.Write: one tab-joined row in the
column order of the source, first field the decimal index, then the index
is incremented. -/
def SMSOutput.Write (R : Renderers) (o : SMSOutputState) (sms : SMS) : SMSOutputState :=
  { lines := o.lines ++
      [String.intercalate ("\t")
        [toString o.idx, sms.Protocol, R.addr sms.Address, R.msgType sms.Ty, sms.Subject,
          R.cleanupMessageBody sms.Body, R.svc sms.ServiceCenter, R.status sms.Status,
          R.readFlag sms.Read, R.date sms.Date, R.locked sms.Locked, R.dateSent sms.DateSent,
          sms.ReadableDate, R.removeCommasBeforeSuffixes sms.ContactName]],
    idx := o.idx + 1 }

/-- Writing of a sequence of records through one SMSOutput. -/
def writeAllSMS (R : Renderers) (o : SMSOutputState) (l : List SMS) : SMSOutputState :=
  l.foldl (SMSOutput.Write R) o

/-- Embedding of the Go function strOrNil of the relational sink: empty
strings and the literal string null are stored as SQL NULL. -/
def strOrNil (s : String) : Option String :=
  if s = "" ∨ s = "null" then none else some s

/-- Row of the sms table of the relational sink, one field per placeholder
of the INSERT statement executed by StreamingOutput.onSms. -/
structure SmsRow where
  protocol : String
  address : String
  ty : String
  subject : Option String
  body : String
  service_center : Option String
  status : String
  read : String
  date : String
  locked : String
  date_sent : String
  readable_date : String
  contact_name : String
  deriving DecidableEq

/-- Row bound by StreamingOutput.onSms for one SMS record: optional text
fields go through strOrNil, everything else is bound unchanged. -/
def onSmsRow (R : Renderers) (sms : SMS) : SmsRow :=
  { protocol := sms.Protocol
    address := R.addr sms.Address
    ty := R.msgType sms.Ty
    subject := strOrNil sms.Subject
    body := sms.Body
    service_center := strOrNil (R.svc sms.ServiceCenter)
    status := R.status sms.Status
    read := R.readFlag sms.Read
    date := sms.Date
    locked := sms.Locked
    date_sent := sms.DateSent
    readable_date := sms.ReadableDate
    contact_name := sms.ContactName }

/-- State of the relational store together with the one open transaction
of a StreamingOutput: committed rows are visible to readers, pending rows
sit in the transaction begun by NewStreamingOutput. -/
structure DBState where
  committed : List SmsRow
  pending : List SmsRow
  deriving DecidableEq

/-- Embedding of NewStreamingOutput: the schema exists, the store holds
its prior rows, and one transaction is begun with nothing pending. -/
def NewStreamingOutput (db : List SmsRow) : DBState :=
  { committed := db, pending := [] }

/-- Insert through the prepared statement of the open transaction. -/
def StreamingOutput.insertSMS (st : DBState) (r : SmsRow) : DBState :=
  { st with pending := st.pending ++ [r] }

/-- Embedding of the Go method StreamingOutput.Commit: the pending rows of
the transaction become visible. -/
def StreamingOutput.Commit (st : DBState) : DBState :=
  { committed := st.committed ++ st.pending, pending := [] }

/-- Rollback performed by StreamingOutput.Close: pending rows are dropped
(a no-op when Commit already ran). -/
def StreamingOutput.Rollback (st : DBState) : DBState :=
  { st with pending := [] }

/-- One step of processing a backup file: either a record reaches the sink
handler, or a failure (decode error, handler error, injected fault) occurs
at that point of the stream. -/
inductive FileItem where
  | record (sms : SMS)
  | fail (msg : String)
  deriving DecidableEq

/-- Decode of one backup file as driven by handleFile: records are
inserted in order through StreamingOutput.onSms until the first failure,
which aborts the remainder of that file and is returned to main. -/
def processFile (R : Renderers) (st : DBState) : List FileItem → DBState × Option String
  | [] => (st, none)
  | FileItem.record s :: rest => processFile R (StreamingOutput.insertSMS st (onSmsRow R s)) rest
  | FileItem.fail e :: _ => (st, some e)

/-- Rows of one file that reach the insert statement: the records before
the first failure. -/
def fileConsumed (R : Renderers) : List FileItem → List SmsRow
  | [] => []
  | FileItem.record s :: rest => onSmsRow R s :: fileConsumed R rest
  | FileItem.fail _ :: _ => []

/-- Embedding of the main driver of the relational variant: one
StreamingOutput (hence one transaction) is created for the whole run, each
file is processed in turn with a per-file error merely reported before the
loop continues, Commit runs once after the loop, and the deferred Close
rolls back whatever is still pending. -/
def mainRun (R : Renderers) (db0 : List SmsRow) (files : List (List FileItem)) : DBState :=
  StreamingOutput.Rollback
    (StreamingOutput.Commit
      (files.foldl (fun acc file => (processFile R acc file).1) (NewStreamingOutput db0)))


/-- Sample failing record used by the relational-sink counterexample. -/
def cexSms : SMS :=
  { Address := "5551234", ContactName := "Alice" }

/-- Sample matched-length MMS record used for claim C2: two tilde-joined
addresses and two comma-joined contact names. -/
def c2Mms : MMS :=
  { Address := "5551234~5556789", ContactName := "Alice, Bob" }

/-- Contact created by the SMS loop of Messages.GuessContacts when a
canonical number is seen for the first time. -/
def freshContact (n : String → String) (sms : SMS) : Contact :=
  { Name := sms.ContactName, CanonicalNumber := n sms.Address, RawNumbers := [sms.Address] }

/-- Claim C6: a MessageDecoder with both OnSMS and OnMMS unset, and a
CallDecoder with OnCall unset, panic at the start of Decode, before any
input is consumed, instead of silently producing an empty result: the
outcome is the panic for every input stream and no handler is invoked. -/
theorem decode_no_handlers_panics (items : List Item) (citems : List CallItem) :
    MessageDecoder.Decode { OnSMS := none, OnMMS := none } items
        = (DecodeOutcome.panicked ("OnSMS or OnMMS must be set"), []) ∧
      CallDecoder.Decode none citems
        = (DecodeOutcome.panicked ("OnCall must be set"), []) := by
  constructor
  · simp [MessageDecoder.Decode]
  · rfl

/-- Claim C1: with both handlers configured and the handlers succeeding,
MessageDecoder.Decode invokes OnSMS and OnMMS exactly once per sms and mms
element of the document, in document order: the invocation trace equals
the projection of the element sequence. -/
theorem decode_preserves_document_order
    (fS : SMS → Option String) (fM : MMS → Option String) (items : List Item)
    (hS : ∀ s, fS s = none) (hM : ∀ m, fM m = none) :
    MessageDecoder.Decode { OnSMS := some fS, OnMMS := some fM } items
      = (DecodeOutcome.ok, items.filterMap itemEvent) := by
  have hloop : decodeLoop { OnSMS := some fS, OnMMS := some fM } items
      = (DecodeOutcome.ok, items.filterMap itemEvent) := by
    induction items with
    | nil => rfl
    | cons it rest ih =>
      cases it with
      | sms s => simp [decodeLoop, hS s, itemEvent, ih]
      | mms m => simp [decodeLoop, hM m, itemEvent, ih]
      | other name => simp [decodeLoop, itemEvent, ih]
  simp [MessageDecoder.Decode, hloop]

/-- Witness for claim C1 at a concrete interleaved stream. -/
theorem decode_preserves_document_order_witness :
    MessageDecoder.Decode
        { OnSMS := some (fun _ => none), OnMMS := some (fun _ => none) }
        [Item.sms { Address := "1" }, Item.other ("note"), Item.mms { Address := "2~3" },
          Item.sms { Address := "4" }]
      = (DecodeOutcome.ok,
          [Event.smsEv { Address := "1" }, Event.mmsEv { Address := "2~3" },
            Event.smsEv { Address := "4" }]) :=
  decode_preserves_document_order (fun _ => none) (fun _ => none) _
    (fun _ => rfl) (fun _ => rfl)

lemma writeAllSMS_lines (R : Renderers) (l : List SMS) :
    ∀ o : SMSOutputState,
      (writeAllSMS R o l).lines = o.lines ++
        (List.enumFrom o.idx l).map (fun p =>
          String.intercalate ("\t")
            [toString p.1, p.2.Protocol, R.addr p.2.Address, R.msgType p.2.Ty, p.2.Subject,
              R.cleanupMessageBody p.2.Body, R.svc p.2.ServiceCenter, R.status p.2.Status,
              R.readFlag p.2.Read, R.date p.2.Date, R.locked p.2.Locked,
              R.dateSent p.2.DateSent, p.2.ReadableDate,
              R.removeCommasBeforeSuffixes p.2.ContactName]) := by
  induction l with
  | nil => intro o; simp [writeAllSMS, List.enumFrom]
  | cons s rest ih =>
    intro o
    have h1 : writeAllSMS R o (s :: rest) = writeAllSMS R (SMSOutput.Write R o s) rest := rfl
    rw [h1, ih]
    simp [SMSOutput.Write, List.enumFrom]

/-- Claim C7: a fresh SMSOutput writes the header row exactly once, at
construction, and the i-th record written afterwards produces exactly one
row whose first field is the decimal rendering of i and whose remaining
fields are, in order, protocol, address, type, subject, body (through
CleanupMessageBody), service center, status, read, date, locked, date
sent, readable date, contact name (through RemoveCommasBeforeSuffixes). -/
theorem sms_sink_rows (R : Renderers) (l : List SMS) :
    (writeAllSMS R NewSMSOutput l).lines = smsHeaderLine ::
      l.enum.map (fun p =>
        String.intercalate ("\t")
          [toString p.1, p.2.Protocol, R.addr p.2.Address, R.msgType p.2.Ty, p.2.Subject,
            R.cleanupMessageBody p.2.Body, R.svc p.2.ServiceCenter, R.status p.2.Status,
            R.readFlag p.2.Read, R.date p.2.Date, R.locked p.2.Locked,
            R.dateSent p.2.DateSent, p.2.ReadableDate,
            R.removeCommasBeforeSuffixes p.2.ContactName]) := by
  have h := writeAllSMS_lines R l NewSMSOutput
  simpa [NewSMSOutput, List.enum] using h

/-- Claim C10: the relational sink stores an optional text field as SQL
NULL exactly when the string is empty or the literal string null, stores
every other value unchanged, and StreamingOutput.onSms routes exactly the
subject and service-center fields through this rule. -/
theorem strOrNil_null_iff (R : Renderers) (sms : SMS) (s : String) :
    (strOrNil s = none ↔ s = "" ∨ s = "null") ∧
      (s ≠ "" ∧ s ≠ "null" → strOrNil s = some s) ∧
      (onSmsRow R sms).subject = strOrNil sms.Subject ∧
      (onSmsRow R sms).service_center = strOrNil (R.svc sms.ServiceCenter) := by
  refine ⟨?_, ?_, rfl, rfl⟩
  · by_cases h : s = "" ∨ s = "null" <;> simp [strOrNil, h]
  · intro h
    simp [strOrNil, h.1, h.2]

/-- Witness for claim C10 at concrete field values. -/
theorem strOrNil_null_iff_witness :
    strOrNil ("hello") = some ("hello") ∧ strOrNil ("null") = none := by
  constructor
  · exact (strOrNil_null_iff idRenderers {} ("hello")).2.1 ⟨by decide, by decide⟩
  · exact (strOrNil_null_iff idRenderers {} ("null")).1.mpr (Or.inr rfl)

lemma processFile_effect (R : Renderers) (f : List FileItem) :
    ∀ st : DBState,
      ((processFile R st f).1).pending = st.pending ++ fileConsumed R f ∧
        ((processFile R st f).1).committed = st.committed := by
  induction f with
  | nil => intro st; simp [processFile, fileConsumed]
  | cons it rest ih =>
    intro st
    cases it with
    | record s =>
      have h := ih (StreamingOutput.insertSMS st (onSmsRow R s))
      simpa [processFile, fileConsumed, StreamingOutput.insertSMS] using h
    | fail e => simp [processFile, fileConsumed]

lemma filesFold_effect (R : Renderers) (files : List (List FileItem)) :
    ∀ st : DBState,
      (files.foldl (fun acc file => (processFile R acc file).1) st).pending
          = st.pending ++ files.flatMap (fileConsumed R) ∧
        (files.foldl (fun acc file => (processFile R acc file).1) st).committed
          = st.committed := by
  induction files with
  | nil => intro st; simp
  | cons f rest ih =>
    intro st
    have h1 := processFile_effect R f st
    have h2 := ih ((processFile R st f).1)
    constructor
    · simp only [List.foldl_cons, List.flatMap_cons]
      rw [h2.1, h1.1, List.append_assoc]
    · simp only [List.foldl_cons]
      rw [h2.2, h1.2]

/-- Claim C5, amended: the relational variant opens one transaction for
the whole run, stops a file at its first failure but keeps the rows
already inserted, continues with the remaining files, and commits
everything once after the loop; the visible store therefore ends as its
prior rows followed by, for each file, exactly the rows inserted before
that file's first failure, and nothing is left pending. -/
theorem relational_sink_one_txn_per_run (R : Renderers) (db0 : List SmsRow)
    (files : List (List FileItem)) :
    (mainRun R db0 files).committed = db0 ++ files.flatMap (fileConsumed R) ∧
      (mainRun R db0 files).pending = [] := by
  have h := filesFold_effect R files (NewStreamingOutput db0)
  constructor
  · simp only [mainRun, StreamingOutput.Rollback, StreamingOutput.Commit]
    rw [h.1, h.2]
    simp [NewStreamingOutput]
  · rfl

/-- Counterexample for claim C5 as stated: a failure injected after one of
two records of a file leaves one committed row for that file, not zero;
there is no per-file rollback. -/
theorem relational_sink_counterexample :
    (mainRun idRenderers []
        [[FileItem.record cexSms, FileItem.fail ("injected failure")]]).committed
        = [onSmsRow idRenderers cexSms] ∧
      (mainRun idRenderers []
        [[FileItem.record cexSms, FileItem.fail ("injected failure")]]).committed ≠ [] := by
  constructor
  · rfl
  · decide

/-- Claim C2, code evaluation: an MMS whose tilde-split address list and
comma-split name list both have length two is nevertheless not merged by
Messages.GuessContacts; the returned canonical map is empty because the
matched-length branch of the MMS loop has no body. -/
theorem guess_matched_mms_not_merged :
    (mmsSplitNums c2Mms).length = 2 ∧
      (mmsSplitNames (fun s => s) c2Mms).length = 2 ∧
      Messages.GuessContacts (fun s => s) (fun s => s) { MMS := [c2Mms] }
        = Except.ok ([], []) := by
  refine ⟨by decide, by decide, rfl⟩

lemma lookupC_mem : ∀ {m : List (String × Contact)} {k : String} {c : Contact},
    lookupC m k = some c → (k, c) ∈ m := by
  intro m
  induction m with
  | nil => intro k c h; simp [lookupC] at h
  | cons p rest ih =>
    intro k c h
    cases p with
    | mk a b =>
      by_cases hk : a = k
      · simp only [lookupC, if_pos hk] at h
        obtain rfl := Option.some.inj h
        subst hk
        exact List.mem_cons_self _ _
      · simp only [lookupC, if_neg hk] at h
        exact List.mem_cons_of_mem _ (ih h)

lemma mem_updateC : ∀ {m : List (String × Contact)} {k : String} {c : Contact}
    {q : String × Contact}, q ∈ updateC m k c → q = (k, c) ∨ q ∈ m := by
  intro m
  induction m with
  | nil => intro k c q h; simp [updateC] at h
  | cons p rest ih =>
    intro k c q h
    by_cases hk : p.1 = k
    · simp only [updateC, if_pos hk, List.mem_cons] at h
      rcases h with h | h
      · exact Or.inl h
      · rcases ih h with h | h
        · exact Or.inl h
        · exact Or.inr (List.mem_cons_of_mem _ h)
    · simp only [updateC, if_neg hk, List.mem_cons] at h
      rcases h with h | h
      · exact Or.inr (h ▸ List.mem_cons_self _ _)
      · rcases ih h with h | h
        · exact Or.inl h
        · exact Or.inr (List.mem_cons_of_mem _ h)

lemma resolveName_canonical (c : Contact) (nn : String) :
    (resolveName c nn).CanonicalNumber = c.CanonicalNumber := by
  unfold resolveName
  split
  · rfl
  · split <;> rfl

lemma resolveName_raw (c : Contact) (nn : String) :
    (resolveName c nn).RawNumbers = c.RawNumbers := by
  unfold resolveName
  split
  · rfl
  · split <;> rfl

lemma addRawNum_canonical (c : Contact) (r : String) :
    (Contact.addRawNum c r).CanonicalNumber = c.CanonicalNumber := by
  unfold Contact.addRawNum
  split <;> rfl

lemma addRawNum_name (c : Contact) (r : String) :
    (Contact.addRawNum c r).Name = c.Name := by
  unfold Contact.addRawNum
  split <;> rfl

lemma addRawNum_nodup {c : Contact} (r : String) (h : c.RawNumbers.Nodup) :
    (Contact.addRawNum c r).RawNumbers.Nodup := by
  unfold Contact.addRawNum
  split
  · exact h
  · rename_i hmem
    simp [List.nodup_append, h, hmem]

lemma stepMap_mem {n : String → String} {map : List (String × Contact)} {s : SMS}
    {q : String × Contact} (hq : q ∈ stepMap n map s) :
    q ∈ map ∨
      (∃ c0, lookupC map (n s.Address) = some c0 ∧
        q = (n s.Address, (resolveName c0 s.ContactName).addRawNum s.Address)) ∨
      (lookupC map (n s.Address) = none ∧
        q = (n s.Address,
          { Name := s.ContactName, CanonicalNumber := n s.Address,
            RawNumbers := [s.Address] })) := by
  simp only [stepMap] at hq
  cases heq : lookupC map (n s.Address) with
  | none =>
    rw [heq] at hq
    simp only [List.mem_append, List.mem_singleton] at hq
    rcases hq with hq | hq
    · exact Or.inl hq
    · exact Or.inr (Or.inr ⟨rfl, hq⟩)
  | some c0 =>
    rw [heq] at hq
    rcases mem_updateC hq with hq | hq
    · exact Or.inr (Or.inl ⟨c0, rfl, hq⟩)
    · exact Or.inl hq

lemma mmsFold_map (rc : String → String) (l : List MMS) :
    ∀ acc : List (String × Contact) × List Diag,
      (l.foldl (processMMSStep rc) acc).1 = acc.1 := by
  induction l with
  | nil => intro acc; rfl
  | cons mms rest ih =>
    intro acc
    rw [List.foldl_cons, ih]
    simp only [processMMSStep]
    split <;> rfl

lemma mmsStep_diag_mono (rc : String → String)
    (acc : List (String × Contact) × List Diag) (mms : MMS) {d : Diag} (hd : d ∈ acc.2) :
    d ∈ (processMMSStep rc acc mms).2 := by
  simp only [processMMSStep]
  split
  · simp [hd]
  · exact hd

lemma mmsFold_diag_mono (rc : String → String) (l : List MMS) :
    ∀ (acc : List (String × Contact) × List Diag) (d : Diag),
      d ∈ acc.2 → d ∈ (l.foldl (processMMSStep rc) acc).2 := by
  induction l with
  | nil => intro acc d hd; exact hd
  | cons mms rest ih =>
    intro acc d hd
    rw [List.foldl_cons]
    exact ih _ d (mmsStep_diag_mono rc acc mms hd)

lemma mmsStep_adds_diag (rc : String → String)
    (acc : List (String × Contact) × List Diag) (mms : MMS)
    (h : (mmsSplitNums mms).length ≠ (mmsSplitNames rc mms).length) :
    Diag.mmsCountMismatch (mmsSplitNums mms).length (mmsSplitNames rc mms).length
        (mmsMismatchReason (mmsSplitNums mms).length (mmsSplitNames rc mms).length)
      ∈ (processMMSStep rc acc mms).2 := by
  simp only [processMMSStep, if_pos h]
  simp

lemma mmsFold_diag_of_mem (rc : String → String) (l : List MMS) (mms : MMS)
    (hm : mms ∈ l)
    (h : (mmsSplitNums mms).length ≠ (mmsSplitNames rc mms).length) :
    ∀ acc : List (String × Contact) × List Diag,
      Diag.mmsCountMismatch (mmsSplitNums mms).length (mmsSplitNames rc mms).length
          (mmsMismatchReason (mmsSplitNums mms).length (mmsSplitNames rc mms).length)
        ∈ (l.foldl (processMMSStep rc) acc).2 := by
  induction l with
  | nil => cases hm
  | cons m0 rest ih =>
    intro acc
    rw [List.foldl_cons]
    rcases List.mem_cons.mp hm with rfl | hm0
    · exact mmsFold_diag_mono rc rest _ _ (mmsStep_adds_diag rc acc mms h)
    · exact ih hm0 _

/-- Claim C4: an MMS record whose split address list and split name list
have unequal lengths contributes nothing to the canonical map (the map is
exactly the one built from the SMS records), a count-mismatch diagnostic
carrying the two lengths and the cause is emitted for it, and
Messages.GuessContacts still returns a non-error result. -/
theorem guess_mms_mismatch_skipped (n rc : String → String) (m : Messages) :
    Messages.GuessContacts n rc m = Except.ok (guessResult n rc m) ∧
      (guessResult n rc m).1 = (m.SMS.foldl (processSMSStep n) ([], [])).1 ∧
      ∀ mms ∈ m.MMS,
        (mmsSplitNums mms).length ≠ (mmsSplitNames rc mms).length →
          Diag.mmsCountMismatch (mmsSplitNums mms).length (mmsSplitNames rc mms).length
              (mmsMismatchReason (mmsSplitNums mms).length (mmsSplitNames rc mms).length)
            ∈ (guessResult n rc m).2 := by
  refine ⟨rfl, ?_, ?_⟩
  · exact mmsFold_map rc m.MMS _
  · intro mms hm h
    exact mmsFold_diag_of_mem rc m.MMS mms hm h _

/-- Witness for claim C4 at a concrete two-address, one-name MMS record. -/
theorem guess_mms_mismatch_skipped_witness :
    Diag.mmsCountMismatch 2 1 MismatchReason.numberProbablyHasNoKnownContact
      ∈ (guessResult (fun s => s) (fun s => s)
          { MMS := [{ Address := "1~2", ContactName := "AB" }] }).2 := by
  have h := (guess_mms_mismatch_skipped (fun s => s) (fun s => s)
      { MMS := [{ Address := "1~2", ContactName := "AB" }] }).2.2
      { Address := "1~2", ContactName := "AB" } (by simp) (by decide)
  exact h

lemma smsFold_canonical (n : String → String) (l : List SMS) :
    ∀ acc : List (String × Contact) × List Diag,
      (∀ q ∈ acc.1, q.2.CanonicalNumber = q.1) →
      ∀ q ∈ (l.foldl (processSMSStep n) acc).1, q.2.CanonicalNumber = q.1 := by
  induction l with
  | nil => intro acc h q hq; exact h q hq
  | cons s rest ih =>
    intro acc h q hq
    rw [List.foldl_cons] at hq
    refine ih (processSMSStep n acc s) ?_ q hq
    intro q0 hq0
    rcases stepMap_mem hq0 with h0 | ⟨c0, hc0, rfl⟩ | ⟨_, rfl⟩
    · exact h q0 h0
    · have hk : c0.CanonicalNumber = n s.Address := h _ (lookupC_mem hc0)
      simp [addRawNum_canonical, resolveName_canonical, hk]
    · rfl

lemma smsFold_keys (n : String → String) (l : List SMS) :
    ∀ (acc : List (String × Contact) × List Diag) (A : String → Prop),
      (∀ q ∈ acc.1, A q.1) →
      ∀ q ∈ (l.foldl (processSMSStep n) acc).1,
        A q.1 ∨ ∃ s ∈ l, q.1 = n s.Address := by
  induction l with
  | nil => intro acc A h q hq; exact Or.inl (h q hq)
  | cons s rest ih =>
    intro acc A h q hq
    rw [List.foldl_cons] at hq
    have hstep : ∀ q0 ∈ (processSMSStep n acc s).1, A q0.1 ∨ q0.1 = n s.Address := by
      intro q0 hq0
      rcases stepMap_mem hq0 with h0 | ⟨c0, _, rfl⟩ | ⟨_, rfl⟩
      · exact Or.inl (h q0 h0)
      · exact Or.inr rfl
      · exact Or.inr rfl
    rcases ih (processSMSStep n acc s) (fun k => A k ∨ k = n s.Address) hstep q hq with
      (hA | he) | ⟨s0, hs0, he⟩
    · exact Or.inl hA
    · exact Or.inr ⟨s, List.mem_cons_self _ _, he⟩
    · exact Or.inr ⟨s0, List.mem_cons_of_mem _ hs0, he⟩

lemma smsFold_nodup (n : String → String) (l : List SMS) :
    ∀ acc : List (String × Contact) × List Diag,
      (∀ q ∈ acc.1, q.2.RawNumbers.Nodup) →
      ∀ q ∈ (l.foldl (processSMSStep n) acc).1, q.2.RawNumbers.Nodup := by
  induction l with
  | nil => intro acc h q hq; exact h q hq
  | cons s rest ih =>
    intro acc h q hq
    rw [List.foldl_cons] at hq
    refine ih (processSMSStep n acc s) ?_ q hq
    intro q0 hq0
    rcases stepMap_mem hq0 with h0 | ⟨c0, hc0, rfl⟩ | ⟨_, rfl⟩
    · exact h q0 h0
    · have hn : c0.RawNumbers.Nodup := h _ (lookupC_mem hc0)
      have hres : (resolveName c0 s.ContactName).RawNumbers.Nodup := by
        rw [resolveName_raw]; exact hn
      exact addRawNum_nodup _ hres
    · simp

/-- Claim C8: every key of the map returned by GuessContacts stores a
contact whose CanonicalNumber equals that key, and every key is the
normalization of the address of at least one SMS record of the input. -/
theorem guess_map_key_invariant (n rc : String → String) (m : Messages)
    (k : String) (c : Contact) (h : (k, c) ∈ (guessResult n rc m).1) :
    c.CanonicalNumber = k ∧ ∃ sms ∈ m.SMS, k = n sms.Address := by
  have hmap : (guessResult n rc m).1 = (m.SMS.foldl (processSMSStep n) ([], [])).1 :=
    mmsFold_map rc m.MMS _
  rw [hmap] at h
  constructor
  · exact smsFold_canonical n m.SMS ([], []) (by simp) (k, c) h
  · have hk := smsFold_keys n m.SMS ([], []) (fun _ => False) (by simp) (k, c) h
    rcases hk with hF | ⟨s, hs, he⟩
    · exact absurd hF id
    · exact ⟨s, hs, he⟩

/-- Witness for claim C8 at a concrete one-record input. -/
theorem guess_map_key_invariant_witness :
    ({ Name := "Alice", CanonicalNumber := "555", RawNumbers := ["555"] } : Contact).CanonicalNumber
        = "555" ∧
      ∃ sms ∈ ({ SMS := [{ Address := "555", ContactName := "Alice" }] } : Messages).SMS,
        "555" = (fun s => s) sms.Address :=
  guess_map_key_invariant (fun s => s) (fun s => s)
    { SMS := [{ Address := "555", ContactName := "Alice" }] } "555"
    { Name := "Alice", CanonicalNumber := "555", RawNumbers := ["555"] } (by decide)

/-- Claim C9: every contact of the map returned by GuessContacts carries a
duplicate-free RawNumbers list, whatever raw addresses repeat in the
input. -/
theorem guess_rawnumbers_nodup (n rc : String → String) (m : Messages)
    (k : String) (c : Contact) (h : (k, c) ∈ (guessResult n rc m).1) :
    c.RawNumbers.Nodup := by
  have hmap : (guessResult n rc m).1 = (m.SMS.foldl (processSMSStep n) ([], [])).1 :=
    mmsFold_map rc m.MMS _
  rw [hmap] at h
  exact smsFold_nodup n m.SMS ([], []) (by simp) (k, c) h

/-- Witness for claim C9 at an input that repeats the same raw address. -/
theorem guess_rawnumbers_nodup_witness :
    ({ Name := "Alice", CanonicalNumber := "555", RawNumbers := ["555"] } : Contact).RawNumbers.Nodup :=
  guess_rawnumbers_nodup (fun s => s) (fun s => s)
    { SMS := [{ Address := "555", ContactName := "Alice" },
              { Address := "555", ContactName := "Alice" }] } "555"
    { Name := "Alice", CanonicalNumber := "555", RawNumbers := ["555"] } (by decide)

lemma resolveName_name_eq {c : Contact} {nn : String} (h : c.Name = nn) :
    (resolveName c nn).Name = nn := by
  simp [resolveName, h]

lemma resolveName_name_unknown {c : Contact} {nn : String} (hne : c.Name ≠ nn)
    (hu : c.Name = "(Unknown)") : (resolveName c nn).Name = nn := by
  have hne2 : ("(Unknown)" : String) ≠ nn := by rw [← hu]; exact hne
  simp [resolveName, hu, hne2]

lemma resolveName_name_keep {c : Contact} {nn : String} (hne : c.Name ≠ nn)
    (hu : c.Name ≠ "(Unknown)") : (resolveName c nn).Name = c.Name := by
  simp [resolveName, hne, hu]

lemma stepDiags_single (n : String → String) (k : String) (c : Contact) (s : SMS)
    (hk : n s.Address = k) :
    stepDiags n [(k, c)] s =
      if c.Name = s.ContactName then []
      else if c.Name = "(Unknown)" then []
      else if s.ContactName = "(Unknown)" then []
      else [Diag.multipleNames k c.Name s.ContactName] := by
  simp [stepDiags, hk, lookupC]

lemma guess_two (n rc : String → String) (s1 s2 : SMS)
    (h : n s2.Address = n s1.Address) :
    guessResult n rc { SMS := [s1, s2] } =
      ([(n s1.Address,
          (resolveName (freshContact n s1) s2.ContactName).addRawNum s2.Address)],
        stepDiags n [(n s1.Address, freshContact n s1)] s2) := by
  have e2 : processSMSStep n ([], []) s1 = ([(n s1.Address, freshContact n s1)], []) := by
    simp [processSMSStep, stepMap, stepDiags, lookupC, freshContact]
  have e3 : stepMap n [(n s1.Address, freshContact n s1)] s2
      = [(n s1.Address,
          (resolveName (freshContact n s1) s2.ContactName).addRawNum s2.Address)] := by
    simp only [stepMap, h]
    simp [lookupC, updateC]
  have e0 : guessResult n rc { SMS := [s1, s2] }
      = processSMSStep n (processSMSStep n ([], []) s1) s2 := rfl
  rw [e0, e2]
  simp only [processSMSStep]
  rw [e3]
  simp

/-- Claim C3: for two SMS records with the same normalized number the
resolver keeps and reports names exactly as specified: an Unknown stored
name is replaced by the incoming name, an incoming Unknown name is
dropped in favor of the stored one without a diagnostic, and two
differing non-sentinel names keep the first-seen name and emit a
naming-conflict diagnostic. -/
theorem guess_conflict_policy (n rc : String → String) (s1 s2 : SMS)
    (h : n s2.Address = n s1.Address) :
    (s1.ContactName = "(Unknown)" →
        (lookupC (guessResult n rc { SMS := [s1, s2] }).1 (n s1.Address)).map Contact.Name
          = some s2.ContactName) ∧
      (s1.ContactName ≠ "(Unknown)" ∧ s2.ContactName = "(Unknown)" →
        (lookupC (guessResult n rc { SMS := [s1, s2] }).1 (n s1.Address)).map Contact.Name
            = some s1.ContactName ∧
          (guessResult n rc { SMS := [s1, s2] }).2 = []) ∧
      (s1.ContactName ≠ "(Unknown)" ∧ s2.ContactName ≠ "(Unknown)" ∧
          s1.ContactName ≠ s2.ContactName →
        (lookupC (guessResult n rc { SMS := [s1, s2] }).1 (n s1.Address)).map Contact.Name
            = some s1.ContactName ∧
          Diag.multipleNames (n s1.Address) s1.ContactName s2.ContactName
            ∈ (guessResult n rc { SMS := [s1, s2] }).2) := by
  have hmain := guess_two n rc s1 s2 h
  have hfc : (freshContact n s1).Name = s1.ContactName := rfl
  refine ⟨?_, ?_, ?_⟩
  · intro h1
    rw [hmain]
    have hname :
        ((resolveName (freshContact n s1) s2.ContactName).addRawNum s2.Address).Name
          = s2.ContactName := by
      rw [addRawNum_name]
      by_cases heq : (freshContact n s1).Name = s2.ContactName
      · rw [resolveName_name_eq heq]
      · exact resolveName_name_unknown heq (by rw [hfc, h1])
    simp [lookupC, hname]
  · rintro ⟨h1, h2⟩
    have hne : (freshContact n s1).Name ≠ s2.ContactName := by
      rw [hfc]
      exact fun he => h1 (he.trans h2)
    have hname :
        ((resolveName (freshContact n s1) s2.ContactName).addRawNum s2.Address).Name
          = s1.ContactName := by
      rw [addRawNum_name, resolveName_name_keep hne (by rw [hfc]; exact h1), hfc]
    constructor
    · rw [hmain]
      simp [lookupC, hname]
    · rw [hmain]
      rw [stepDiags_single n (n s1.Address) (freshContact n s1) s2 h]
      rw [if_neg hne, if_neg (show (freshContact n s1).Name ≠ "(Unknown)" from h1),
        if_pos h2]
  · rintro ⟨h1, h2, h3⟩
    have hne : (freshContact n s1).Name ≠ s2.ContactName := by
      rw [hfc]; exact h3
    have hname :
        ((resolveName (freshContact n s1) s2.ContactName).addRawNum s2.Address).Name
          = s1.ContactName := by
      rw [addRawNum_name, resolveName_name_keep hne (by rw [hfc]; exact h1), hfc]
    constructor
    · rw [hmain]
      simp [lookupC, hname]
    · rw [hmain]
      rw [stepDiags_single n (n s1.Address) (freshContact n s1) s2 h]
      rw [if_neg hne, if_neg (show (freshContact n s1).Name ≠ "(Unknown)" from h1),
        if_neg h2]
      exact List.mem_singleton.mpr rfl

/-- Witness for claim C3: an Unknown first record merges with a named
second record of the same number to the name Alice. -/
theorem guess_conflict_policy_witness :
    (lookupC (guessResult (fun s => s) (fun s => s)
        { SMS := [{ Address := "555", ContactName := "(Unknown)" },
                  { Address := "555", ContactName := "Alice" }] }).1 ("555")).map Contact.Name
      = some ("Alice") := by
  have h := guess_conflict_policy (fun s => s) (fun s => s)
      { Address := "555", ContactName := "(Unknown)" }
      { Address := "555", ContactName := "Alice" } rfl
  exact h.1 rfl
